import Mathlib

/-!
Verification of the almanacalarm repository against its specification.

Shallow embedding conventions:
* Instants are rationals (`ℚ`) or integers (`Int`): millisecond timestamps for
  alarms and locations, an abstract linear time unit for tide events, and
  minutes since local midnight for sun times.  JavaScript `Date` arithmetic is
  modelled without time zones or DST: `setDate(getDate() + 1)` becomes adding
  the constant `DAY_MS` (24 hours of milliseconds).
* The `notifee` trigger store, the service's in-memory `Map`, and the
  `AsyncStorage` mirror are modelled explicitly as components of
  `ServiceState`; `createTriggerNotification` with an existing id replaces the
  prior entry, `cancelNotification` of an absent id is a no-op.
* JavaScript `Math` is abstracted as a record `MathOps` of rational functions
  (`sin`, `cos`, `asin`, `acos`) plus the constant `pi`; the solar geometry of
  `SunTimesService.calculateSunTimes` is translated literally over an
  arbitrary such record, so theorems quantify over every interpretation of
  the trig primitives, including the true real-valued one.
* Fallible operations return `Option` or `Except`; `Promise.allSettled`
  outcomes are `Option` values (`none` = rejected).
-/

namespace AlmanacAlarm

/-! ## Alarm data model (`src/services/AlarmService.ts`) -/

/-- `AlarmData` from `src/services/AlarmService.ts`.  The source field
`repeat` (daily repetition) is a Lean keyword and is named `repeatDaily`
here; `time` is a millisecond timestamp. -/
structure AlarmData where
  id : String
  time : Int
  enabled : Bool
  repeatDaily : Bool
  label : Option String
deriving Repr, DecidableEq

/-- One armed entry of the platform trigger store (a scheduled notifee
trigger notification): its id, its timestamp, and whether a daily
`repeatFrequency` was requested. -/
structure TriggerEntry where
  id : String
  timestamp : Int
  repeatDaily : Bool
deriving Repr, DecidableEq

/-- The state touched by `AlarmService`: the platform trigger store
(`notifee`), the service's in-memory `Map` of alarms (association list in
insertion order), and the `AsyncStorage` value stored under
`@AlmanacAlarm:alarms` (`none` = key absent). -/
structure ServiceState where
  triggers : List TriggerEntry
  alarms : List (String × AlarmData)
  storage : Option (List AlarmData)
deriving Repr, DecidableEq

/-- 24 hours in milliseconds; `alarmTime.setDate(alarmTime.getDate() + 1)`
is modelled as adding this constant. -/
def DAY_MS : Int := 86400000

/-- The past-time adjustment at the top of `scheduleAlarm`
(`src/services/AlarmService.ts` lines 120-129): a scheduled time that is
less than or equal to `now` is advanced by one day, otherwise kept. -/
def armTime (now t : Int) : Int :=
  if t ≤ now then t + DAY_MS else t

/-- JavaScript `Map.get`. -/
def mapGet (m : List (String × AlarmData)) (k : String) : Option AlarmData :=
  (m.find? (fun p => p.1 == k)).map (fun p => p.2)

/-- JavaScript `Map.set`: replaces in place when the key is present,
appends otherwise. -/
def mapSet (m : List (String × AlarmData)) (k : String) (v : AlarmData) :
    List (String × AlarmData) :=
  if m.any (fun p => p.1 == k) then
    m.map (fun p => if p.1 == k then (k, v) else p)
  else
    m ++ [(k, v)]

/-- JavaScript `Map.delete`. -/
def mapDelete (m : List (String × AlarmData)) (k : String) :
    List (String × AlarmData) :=
  m.filter (fun p => !(p.1 == k))

/-- `notifee.createTriggerNotification`: arming an id that already has a
trigger replaces the prior entry (no duplicate per id). -/
def storeArm (ts : List TriggerEntry) (e : TriggerEntry) : List TriggerEntry :=
  (ts.filter (fun x => !(x.id == e.id))) ++ [e]

/-- `notifee.cancelNotification`: removes the entry for the id; a no-op when
absent. -/
def storeCancel (ts : List TriggerEntry) (i : String) : List TriggerEntry :=
  ts.filter (fun x => !(x.id == i))

/-- `saveAlarms` (`src/services/AlarmService.ts` lines 82-92): serialises the
in-memory map's values into `AsyncStorage` under the storage key. -/
def saveAlarms (s : ServiceState) : ServiceState :=
  { s with storage := some (s.alarms.map (fun p => p.2)) }

/-- `scheduleAlarm` (`src/services/AlarmService.ts` lines 118-181): adjusts a
past time forward by one day, arms one trigger-store entry keyed by the
alarm id (with daily repetition when `repeatDaily`), records the (adjusted)
alarm in the in-memory map, and saves the map to `AsyncStorage`. -/
def scheduleAlarm (s : ServiceState) (now : Int) (a : AlarmData) : ServiceState :=
  let t := armTime now a.time
  let a2 := { a with time := t }
  let s1 := { s with triggers := storeArm s.triggers ⟨a.id, t, a.repeatDaily⟩ }
  let s2 := { s1 with alarms := mapSet s1.alarms a.id a2 }
  saveAlarms s2

/-- `cancelAlarm` (`src/services/AlarmService.ts` lines 186-196): removes the
trigger-store entry and the map entry, then saves. -/
def cancelAlarm (s : ServiceState) (i : String) : ServiceState :=
  saveAlarms { s with triggers := storeCancel s.triggers i,
                      alarms := mapDelete s.alarms i }

/-- `deleteAlarm` (`src/services/AlarmService.ts` lines 226-230):
`cancelAlarm` followed by a second (now redundant) map delete and save. -/
def deleteAlarm (s : ServiceState) (i : String) : ServiceState :=
  let s1 := cancelAlarm s i
  saveAlarms { s1 with alarms := mapDelete s1.alarms i }

/-- `getAllAlarms` (`src/services/AlarmService.ts` lines 201-203): returns
the values of the service's in-memory map (not the trigger store). -/
def getAllAlarms (s : ServiceState) : List AlarmData :=
  s.alarms.map (fun p => p.2)

/-- The timestamp armed in the trigger store for a given id, if any. -/
def armedTimestamp (s : ServiceState) (i : String) : Option Int :=
  (s.triggers.find? (fun e => e.id == i)).map (fun e => e.timestamp)

/-- The post-fire cleanup of the background event handler
(`src/index.js` lines 25-35): look the fired id up in `getAllAlarms`; a
non-repeating alarm is deleted, a repeating one is left alone. -/
def resolveFired (s : ServiceState) (firedId : String) : ServiceState :=
  match (getAllAlarms s).find? (fun a => a.id == firedId) with
  | some a => if a.repeatDaily then s else deleteAlarm s a.id
  | none => s

/-- One user-level alarm operation, for reasoning about operation
sequences. -/
inductive AlarmOp where
  | schedule (now : Int) (a : AlarmData)
  | cancel (i : String)
  | delete (i : String)
deriving Repr, DecidableEq

/-- Apply one alarm operation to the service state. -/
def applyOp (s : ServiceState) : AlarmOp → ServiceState
  | .schedule now a => scheduleAlarm s now a
  | .cancel i => cancelAlarm s i
  | .delete i => deleteAlarm s i

/-- Run a sequence of alarm operations. -/
def runOps (s : ServiceState) : List AlarmOp → ServiceState
  | [] => s
  | op :: rest => runOps (applyOp s op) rest

/-- Fresh-install state: empty trigger store, empty map, no stored value. -/
def initialState : ServiceState := ⟨[], [], none⟩

/-! ## Tide data model (`src/services/TideService.ts`) -/

/-- Tide event kind: `H` high, `L` low, `C` the synthesized current level. -/
inductive TideType where
  | H
  | L
  | C
deriving Repr, DecidableEq

/-- `TideEvent` from `src/services/TideService.ts`; `time` is an instant in
an abstract linear unit, `height` is feet. -/
structure TideEvent where
  type : TideType
  time : ℚ
  height : ℚ
  formattedTime : String
  isCurrent : Bool
deriving Repr, DecidableEq

/-- The inline linear interpolation of `calculateCurrentTide`
(`src/services/TideService.ts` lines 170-184):
`beforeTide.height + (afterTide.height - beforeTide.height) * timeFraction`
with `timeFraction = (now - t0) / (t1 - t0)`. -/
def interpHeight (t0 h0 t1 h1 t : ℚ) : ℚ :=
  h0 + (h1 - h0) * ((t - t0) / (t1 - t0))

/-- The scan of `calculateCurrentTide`'s for-loop
(`src/services/TideService.ts` lines 155-164): walk the events in order,
remembering the last event at or before `now`, and stop at the first event
after `now`. -/
def findBracket (now : ℚ) :
    List TideEvent → Option TideEvent → Option TideEvent × Option TideEvent
  | [], before => (before, none)
  | t :: rest, before =>
    if t.time ≤ now then findBracket now rest (some t)
    else (before, some t)

/-- `calculateCurrentTide` (`src/services/TideService.ts` lines 149-184):
when the scan yields both a bracketing `before` and `after` event, a
synthetic `C` event at `now` with linearly interpolated height is produced,
otherwise `null`. -/
def calculateCurrentTide (now : ℚ) (allTides : List TideEvent) :
    Option TideEvent :=
  match findBracket now allTides none with
  | (some b, some a) =>
    some { type := .C, time := now,
           height := interpHeight b.time b.height a.time a.height now,
           formattedTime := ("Now"), isCurrent := true }
  | _ => none

/-- The 24-hour filter window of `getTidePredictions` (the same abstract
time unit as `TideEvent.time`; its numeric size is irrelevant to the
claims, the source uses 24 h of milliseconds). -/
def TIDE_WINDOW : ℚ := 86400000

/-- The pure tail of `getTidePredictions`
(`src/services/TideService.ts` lines 231-243): keep predictions within the
next 24 hours and prepend the synthetic current event when it exists. -/
def tidePredictions (now : ℚ) (allTides : List TideEvent) : List TideEvent :=
  let currentTide := calculateCurrentTide now allTides
  let futureTides := allTides.filter
    (fun t => decide (now ≤ t.time) && decide (t.time ≤ now + TIDE_WINDOW))
  match currentTide with
  | some c => c :: futureTides
  | none => futureTides

/-- `Number.toFixed(1)` rendering for speech, modelled as an exact decimal
with one fractional digit produced by rounding half away from zero is not
needed by any claim: any deterministic rendering works, here round to
tenths and print `whole.tenth`. -/
def toFixed1 (q : ℚ) : String :=
  let n : Int := ⌊q * 10 + 1/2⌋
  toString (n / 10) ++ ("." ) ++ toString (n % 10)

/-- `getTidesSpeechText` (`src/services/TideService.ts` lines 253-274). -/
def getTidesSpeechText (tides : List TideEvent) : String :=
  if tides.length = 0 then ("No tide information available.")
  else
    let current := tides.find? (fun t => t.isCurrent)
    let future := tides.filter (fun t => !t.isCurrent)
    let speech :=
      match current with
      | some c => ("Current tide is ") ++ toFixed1 c.height ++ (" feet. ")
      | none => ("")
    match future with
    | next :: _ =>
      speech ++ ("Next ") ++
        (if next.type == TideType.H then ("high tide") else ("low tide")) ++
        (" at ") ++ next.formattedTime ++ (", ") ++ toFixed1 next.height ++
        (" feet.")
    | [] => speech

/-! ## Location model (`src/services/LocationService.ts`) -/

/-- `LocationData` from `src/services/LocationService.ts`. -/
structure LocationData where
  latitude : ℚ
  longitude : ℚ
  accuracy : ℚ
  timestamp : ℚ
deriving Repr, DecidableEq

/-- `LocationError` from `src/services/LocationService.ts`. -/
structure LocationError where
  code : Int
  message : String
deriving Repr, DecidableEq

/-- `CACHE_MAX_AGE_MS` (`src/services/LocationService.ts` line 24): one
hour. -/
def CACHE_MAX_AGE_MS : ℚ := 3600000

/-- The `maximumAge` geolocation option passed in `getCurrentLocation`
(`src/services/LocationService.ts` line 130): a fresh platform fix may be
at most five minutes old. -/
def FRESH_MAX_AGE_MS : ℚ := 300000

/-- `getCachedLocation` (`src/services/LocationService.ts` lines 38-51):
returns the cached fix only when its age does not exceed
`CACHE_MAX_AGE_MS`. -/
def getCachedLocation (now : ℚ) (cached : Option LocationData) :
    Option LocationData :=
  match cached with
  | none => none
  | some c => if now - c.timestamp > CACHE_MAX_AGE_MS then none else some c

/-- The `error.code || 999` / `error.message || ...` defaulting of
`getCurrentLocation`'s final error path. -/
def defaultedError (e : LocationError) : LocationError :=
  { code := if e.code = 0 then 999 else e.code,
    message := if e.message = ("") then ("Unable to get location") else e.message }

/-- `getCurrentLocation` (`src/services/LocationService.ts` lines 93-153),
with its environment made explicit: `perm` is the permission-request
outcome and `fresh` the platform fix attempt.  Returns the result together
with the updated cache. -/
def getCurrentLocation (now : ℚ) (cached : Option LocationData) (perm : Bool)
    (fresh : Except LocationError LocationData) :
    Except LocationError LocationData × Option LocationData :=
  if !perm then
    match getCachedLocation now cached with
    | some c => (.ok c, cached)
    | none => (.error ⟨1, ("Location permission denied")⟩, cached)
  else
    match fresh with
    | .ok l => (.ok l, some l)
    | .error e =>
      match getCachedLocation now cached with
      | some c => (.ok c, cached)
      | none => (.error (defaultedError e), cached)

/-- Proposition: an ok fix was captured within `bound` of the query time
`now` (error results are unconstrained). -/
def withinAge (bound now : ℚ) : Except LocationError LocationData → Prop
  | .ok l => now - l.timestamp ≤ bound
  | .error _ => True

/-- Proposition: the outcome is a typed failure. -/
def isFailure : Except LocationError LocationData → Prop
  | .ok _ => False
  | .error _ => True

instance (bound now : ℚ) (r : Except LocationError LocationData) :
    Decidable (withinAge bound now r) := by
  unfold withinAge
  cases r <;> infer_instance

instance (r : Except LocationError LocationData) : Decidable (isFailure r) := by
  unfold isFailure
  cases r <;> infer_instance

/-! ## Sun times (`src/unnamed/part_004`, SunTimesService) -/

/-- The JavaScript `Math` primitives used by `SunTimesService`, abstracted
as an arbitrary record of rational functions plus the constant `Math.PI`.
Theorems below hold for every interpretation, in particular the true
real-valued one. -/
structure MathOps where
  sin : ℚ → ℚ
  cos : ℚ → ℚ
  asin : ℚ → ℚ
  acos : ℚ → ℚ
  pi : ℚ

/-- JavaScript truncation toward zero (`Math.trunc`, and the integer part
used by the `%` remainder). -/
def jsTrunc (q : ℚ) : Int :=
  if q < 0 then ⌈q⌉ else ⌊q⌋

/-- JavaScript `%` remainder: `a - b * trunc(a / b)` (sign of the
dividend). -/
def jsMod (a b : ℚ) : ℚ :=
  a - b * (jsTrunc (a / b) : ℚ)

/-- `toJulian` (`src/unnamed/part_004` lines 28-30):
`date.getTime() / 86400000 + 2440587.5`. -/
def toJulian (dateMs : ℚ) : ℚ :=
  dateMs / 86400000 + 2440587.5

/-- Julian century from the Julian day (`src/unnamed/part_004` line 44). -/
def julianCenturyOf (dateMs : ℚ) : ℚ :=
  (toJulian dateMs - 2451545.0) / 36525.0

/-- Sun's mean anomaly (`src/unnamed/part_004` lines 47-48). -/
def sunMeanAnomalyOf (jc : ℚ) : ℚ :=
  357.52911 + jc * (35999.05029 - 0.0001537 * jc)

/-- Sun's equation of center (`src/unnamed/part_004` lines 51-56). -/
def sunEquationOfCenterOf (M : MathOps) (jc : ℚ) : ℚ :=
  M.sin (sunMeanAnomalyOf jc * M.pi / 180) *
      (1.914602 - jc * (0.004817 + 0.000014 * jc)) +
    M.sin (2 * sunMeanAnomalyOf jc * M.pi / 180) *
      (0.019993 - 0.000101 * jc) +
    M.sin (3 * sunMeanAnomalyOf jc * M.pi / 180) * 0.000289

/-- Sun's true longitude (`src/unnamed/part_004` lines 58-62), with the
JavaScript `% 360`. -/
def sunTrueLongitudeOf (M : MathOps) (jc : ℚ) : ℚ :=
  jsMod (357.52911 + jc * (35999.05029 - 0.0001537 * jc) +
    sunEquationOfCenterOf M jc) 360

/-- Sun's declination in degrees (`src/unnamed/part_004` lines 65-71). -/
def sunDeclinationOf (M : MathOps) (jc : ℚ) : ℚ :=
  M.asin (M.sin (23.439 * M.pi / 180) *
    M.sin (sunTrueLongitudeOf M jc * M.pi / 180)) * 180 / M.pi

/-- `cosHourAngle` (`src/unnamed/part_004` lines 74-79):
`(cos Z - sin lat * sin decl) / (cos lat * cos decl)` in degrees. -/
def cosHourAngleOf (M : MathOps) (latitude dateMs zenith : ℚ) : ℚ :=
  let jc := julianCenturyOf dateMs
  let decl := sunDeclinationOf M jc
  (M.cos (zenith * M.pi / 180) -
      M.sin (latitude * M.pi / 180) * M.sin (decl * M.pi / 180)) /
    (M.cos (latitude * M.pi / 180) * M.cos (decl * M.pi / 180))

/-- `calculateSunTimes` (`src/unnamed/part_004` lines 36-104): returns
`null` exactly when `cosHourAngle` falls outside `[-1, 1]`, otherwise the
event instant, reduced here to minutes since local midnight
(`setHours(Math.floor(hours))`, `setMinutes(Math.round((hours % 1) * 60))`).
`tzOffsetMin` stands for `date.getTimezoneOffset()`. -/
def calculateSunTimes (M : MathOps) (latitude longitude dateMs tzOffsetMin
    zenith : ℚ) (isSunrise : Bool) : Option ℚ :=
  let jc := julianCenturyOf dateMs
  let eoc := sunEquationOfCenterOf M jc
  let cosHourAngle := cosHourAngleOf M latitude dateMs zenith
  if 1 < cosHourAngle ∨ cosHourAngle < -1 then none
  else
    let hourAngle := M.acos cosHourAngle * 180 / M.pi
    let solarNoon := (720 - 4 * longitude - eoc + tzOffsetMin) / 1440
    let sunriseTime := solarNoon - hourAngle * 4 / 1440
    let sunsetTime := solarNoon + hourAngle * 4 / 1440
    let timeValue := if isSunrise then sunriseTime else sunsetTime
    let hours := timeValue * 24
    some ((⌊hours⌋ : ℚ) * 60 + (⌊jsMod hours 1 * 60 + 1/2⌋ : ℤ))

/-- `SunTimes` from `src/unnamed/part_004`: after `getSunTimes`'s
substitution all four fields are plain instants. -/
structure SunTimes where
  sunrise : ℚ
  sunset : ℚ
  dawn : ℚ
  dusk : ℚ
deriving Repr, DecidableEq

/-- Official sunrise/sunset zenith (`src/unnamed/part_004` line 111). -/
def SUNRISE_SUNSET_ZENITH : ℚ := 90.833

/-- Civil twilight zenith (`src/unnamed/part_004` line 112). -/
def CIVIL_TWILIGHT_ZENITH : ℚ := 96

/-- `getSunTimes` (`src/unnamed/part_004` lines 109-149): four calls to
`calculateSunTimes`, each `null` result replaced by the current clock
instant (`sunrise || new Date()` and so on); `now` stands for those
`new Date()` calls. -/
def getSunTimes (M : MathOps) (latitude longitude dateMs tzOffsetMin now : ℚ) :
    SunTimes :=
  let sunrise := calculateSunTimes M latitude longitude dateMs tzOffsetMin
    SUNRISE_SUNSET_ZENITH true
  let sunset := calculateSunTimes M latitude longitude dateMs tzOffsetMin
    SUNRISE_SUNSET_ZENITH false
  let dawn := calculateSunTimes M latitude longitude dateMs tzOffsetMin
    CIVIL_TWILIGHT_ZENITH true
  let dusk := calculateSunTimes M latitude longitude dateMs tzOffsetMin
    CIVIL_TWILIGHT_ZENITH false
  { sunrise := match sunrise with | some t => t | none => now,
    sunset := match sunset with | some t => t | none => now,
    dawn := match dawn with | some t => t | none => now,
    dusk := match dusk with | some t => t | none => now }

/-- A concrete interpretation of the `Math` primitives used to drive the
solar engine into the polar-day/night branch: constant sine 1, constant
cosine 1/2, so `cosHourAngle = (1/2 - 1) / (1/4) = -2`. -/
def polarMath : MathOps :=
  { sin := fun _ => 1, cos := fun _ => 1/2,
    asin := fun _ => 0, acos := fun _ => 0, pi := 3 }

/-! ## Briefing aggregation (`src/unnamed/part_003`, AlmanacSpeaker) -/

/-- `getGreeting` (`src/unnamed/part_003` lines 15-25). -/
def getGreeting (hour : Int) : String :=
  if 5 ≤ hour ∧ hour < 12 then ("Good morning")
  else if 12 ≤ hour ∧ hour < 17 then ("Good afternoon")
  else if 17 ≤ hour ∧ hour < 21 then ("Good evening")
  else ("Good night")

/-- The settled outcomes of the six `Promise.allSettled` tasks of
`speakAlmanac` (`src/unnamed/part_003` lines 47-54).  `none` is a rejected
promise.  The geocoding value is itself nullable, matching
`getCityFromCoordinates`; weather, sun-times, air-quality and verse values
are abstracted to the sentence their speech-text helper renders, the tide
value stays concrete because its guard inspects the list. -/
structure ProviderOutcomes where
  cityInfo : Option (Option String)
  weather : Option String
  tides : Option (List TideEvent)
  airQuality : Option String
  sunTimesText : Option String
  bibleVerse : Option String
deriving DecidableEq

/-- The sentence-accumulation chain of `speakAlmanac`
(`src/unnamed/part_003` lines 72-96): each fulfilled (and truthy / nonempty)
result appends its sentence; the order is fixed by the source. -/
def composeSpeech (preamble : String) (o : ProviderOutcomes) : String :=
  let speech := preamble
  let speech :=
    match o.cityInfo with
    | some (some c) => speech ++ ("Your location is ") ++ c ++ (". ")
    | _ => speech
  let speech :=
    match o.weather with
    | some w => speech ++ w ++ (" ")
    | none => speech
  let speech :=
    match o.sunTimesText with
    | some st => speech ++ st ++ (" ")
    | none => speech
  let speech :=
    match o.tides with
    | some l => if 0 < l.length then speech ++ getTidesSpeechText l ++ (" ")
                else speech
    | none => speech
  let speech :=
    match o.airQuality with
    | some aq => speech ++ aq ++ (" ")
    | none => speech
  let speech :=
    match o.bibleVerse with
    | some v => speech ++ v
    | none => speech
  speech

/-- The fixed preamble of the narration: greeting, time, date
(`src/unnamed/part_003` line 72). -/
def speechPreamble (hour : Int) (timeString dateString : String) : String :=
  getGreeting hour ++ (". It is ") ++ timeString ++ (", ") ++ dateString ++
    (". ")

/-- `speakAlmanac` (`src/unnamed/part_003` lines 27-105), reduced to the
text it hands to the voice channel: a location failure short-circuits to an
audible error sentence; otherwise the narration is composed from whatever
outcomes settled successfully.  Total by construction — the source wraps
everything in `try`/`catch` and `Promise.allSettled` never rejects. -/
def speakAlmanac (hour : Int) (timeString dateString : String)
    (locationResult : Except LocationError LocationData)
    (o : ProviderOutcomes) : String :=
  match locationResult with
  | .error _ =>
    ("Unable to get location. Please check your location permissions.")
  | .ok _ => composeSpeech (speechPreamble hour timeString dateString) o

/-- Modelled from the spec: the fixed composition order with failed
sections omitted — the list of provider sentences that survive, in the
order §4.5 fixes.  This is the spec-side description `composeSpeech` is
compared against. -/
def sentenceSlots (o : ProviderOutcomes) : List String :=
  (match o.cityInfo with
   | some (some c) => [("Your location is ") ++ c ++ (". ")]
   | _ => []) ++
  (match o.weather with
   | some w => [w ++ (" ")]
   | none => []) ++
  (match o.sunTimesText with
   | some st => [st ++ (" ")]
   | none => []) ++
  (match o.tides with
   | some l => if 0 < l.length then [getTidesSpeechText l ++ (" ")] else []
   | none => []) ++
  (match o.airQuality with
   | some aq => [aq ++ (" ")]
   | none => []) ++
  (match o.bibleVerse with
   | some v => [v]
   | none => [])

/-- Concatenation of the surviving sentences. -/
def concatAll : List String → String
  | [] => ("")
  | s :: rest => s ++ concatAll rest

/-! ## Concrete sample inputs used by witnesses -/

/-- A non-repeating alarm whose scheduled time (the 86400000 ms mark) is
five milliseconds in the past at submission time 86400005. -/
def pastAlarm : AlarmData :=
  ⟨("a1"), 86400000, true, false, none⟩

/-- A daily-repeating armed alarm. -/
def sampleRepeatAlarm : AlarmData :=
  ⟨("daily"), 5, true, true, none⟩

/-- A one-shot armed alarm. -/
def sampleOnceAlarm : AlarmData :=
  ⟨("once"), 6, true, false, none⟩

/-- A service state holding one repeating and one non-repeating alarm, both
armed in the trigger store and recorded in the map. -/
def sampleState : ServiceState :=
  ⟨[⟨("daily"), 5, true⟩, ⟨("once"), 6, false⟩],
   [(("daily"), sampleRepeatAlarm), (("once"), sampleOnceAlarm)], none⟩

/-- The map invariant the service maintains: every map entry is keyed by
its alarm's id. -/
def KeyedById (s : ServiceState) : Prop :=
  ∀ p ∈ s.alarms, p.2.id = p.1

instance (s : ServiceState) : Decidable (KeyedById s) := by
  unfold KeyedById
  infer_instance

/-- Proposition: the sequence contains a synthesized current-tide event. -/
def hasCurrentEvent (l : List TideEvent) : Prop :=
  ∃ t ∈ l, t.type = TideType.C

instance (l : List TideEvent) : Decidable (hasCurrentEvent l) := by
  unfold hasCurrentEvent
  infer_instance

/-- The high-tide event of the spec's end-to-end example: 3.0 ft at minute
600 (10:00). -/
def sampleHighTide : TideEvent :=
  ⟨.H, 600, 3, ("10:00 AM"), false⟩

/-- The low-tide event of the spec's end-to-end example: 0.5 ft at minute
960 (16:00). -/
def sampleLowTide : TideEvent :=
  ⟨.L, 960, 1/2, ("4:00 PM"), false⟩

/-- The spec's end-to-end tide example sequence. -/
def sampleTides : List TideEvent :=
  [sampleHighTide, sampleLowTide]

/-- A cached fix captured at the 1000000 ms mark. -/
def sampleFix : LocationData :=
  ⟨0, 0, 0, 1000000⟩

/-- A platform geolocation failure. -/
def sampleLocErr : LocationError :=
  ⟨2, ("Position unavailable")⟩

/-! ## Helper lemmas -/

theorem storeArm_find (ts : List TriggerEntry) (e : TriggerEntry) :
    (storeArm ts e).find? (fun x => x.id == e.id) = some e := by
  unfold storeArm
  rw [List.find?_append]
  have hnone : (ts.filter (fun x => !(x.id == e.id))).find?
      (fun x => x.id == e.id) = none := by
    rw [List.find?_eq_none]
    intro x hx
    rcases List.mem_filter.mp hx with ⟨_, hpx⟩
    simpa using hpx
  rw [hnone]
  simp [List.find?]

theorem mapGet_mapSet_self (m : List (String × AlarmData)) (k : String)
    (v : AlarmData) : mapGet (mapSet m k v) k = some v := by
  unfold mapGet mapSet
  by_cases hmem : m.any (fun p => p.1 == k) = true
  · rw [if_pos hmem]
    induction m with
    | nil => simp at hmem
    | cons p rest ih =>
      by_cases hp : p.1 == k
      · simp [List.find?, hp]
      · have hrest : rest.any (fun p => p.1 == k) = true := by
          rcases List.any_eq_true.mp hmem with ⟨q, hq, hqk⟩
          rcases List.mem_cons.mp hq with rfl | hq2
          · exact absurd hqk (by simpa using hp)
          · exact List.any_eq_true.mpr ⟨q, hq2, hqk⟩
        have := ih hrest
        simpa [List.find?, hp] using this
  · rw [if_neg hmem]
    rw [List.find?_append]
    have hnone : m.find? (fun p => p.1 == k) = none := by
      rw [List.find?_eq_none]
      intro x hx hpx
      exact hmem (List.any_eq_true.mpr ⟨x, hx, hpx⟩)
    rw [hnone]
    simp [List.find?]

theorem keys_mapSet (m : List (String × AlarmData)) (k i : String)
    (v : AlarmData) :
    (∃ p ∈ mapSet m k v, p.1 = i) ↔ i = k ∨ ∃ p ∈ m, p.1 = i := by
  unfold mapSet
  by_cases hmem : m.any (fun p => p.1 == k) = true
  · rw [if_pos hmem]
    constructor
    · rintro ⟨p, hp, hpi⟩
      rcases List.mem_map.mp hp with ⟨q, hq, hqp⟩
      by_cases hqk : q.1 == k
      · left
        have : p = (k, v) := by simpa [hqk] using hqp.symm
        rw [this] at hpi
        exact hpi.symm
      · right
        have : p = q := by simpa [hqk] using hqp.symm
        exact ⟨q, hq, by rw [← this]; exact hpi⟩
    · rintro (rfl | ⟨p, hp, hpi⟩)
      · rcases List.any_eq_true.mp hmem with ⟨q, hq, hqk⟩
        refine ⟨(i, v), List.mem_map.mpr ⟨q, hq, ?_⟩, rfl⟩
        have : q.1 = i := by simpa using hqk
        simp [this]
      · by_cases hpk : p.1 == k
        · have hik : i = k := by
            have : p.1 = k := by simpa using hpk
            rw [← hpi, this]
          refine ⟨(k, v), List.mem_map.mpr ⟨p, hp, by simp [hpk]⟩, hik.symm⟩
        · exact ⟨p, List.mem_map.mpr ⟨p, hp, by simp [hpk]⟩, hpi⟩
  · rw [if_neg hmem]
    constructor
    · rintro ⟨p, hp, hpi⟩
      rcases List.mem_append.mp hp with hp2 | hp2
      · exact Or.inr ⟨p, hp2, hpi⟩
      · left
        have : p = (k, v) := by simpa using hp2
        rw [this] at hpi
        exact hpi.symm
    · rintro (rfl | ⟨p, hp, hpi⟩)
      · exact ⟨(i, v), List.mem_append.mpr (Or.inr (by simp)), rfl⟩
      · exact ⟨p, List.mem_append.mpr (Or.inl hp), hpi⟩

theorem ids_storeArm (ts : List TriggerEntry) (e : TriggerEntry) (i : String) :
    (∃ x ∈ storeArm ts e, x.id = i) ↔ i = e.id ∨ ∃ x ∈ ts, x.id = i := by
  unfold storeArm
  constructor
  · rintro ⟨x, hx, hxi⟩
    rcases List.mem_append.mp hx with hx2 | hx2
    · exact Or.inr ⟨x, (List.mem_filter.mp hx2).1, hxi⟩
    · left
      have : x = e := by simpa using hx2
      rw [this] at hxi
      exact hxi.symm
  · rintro (rfl | ⟨x, hx, hxi⟩)
    · exact ⟨e, List.mem_append.mpr (Or.inr (by simp)), rfl⟩
    · by_cases hxe : x.id == e.id
      · refine ⟨e, List.mem_append.mpr (Or.inr (by simp)), ?_⟩
        have : x.id = e.id := by simpa using hxe
        rw [← this]
        exact hxi
      · exact ⟨x, List.mem_append.mpr
          (Or.inl (List.mem_filter.mpr ⟨hx, by simpa using hxe⟩)), hxi⟩

theorem keys_mapDelete (m : List (String × AlarmData)) (k i : String) :
    (∃ p ∈ mapDelete m k, p.1 = i) ↔ i ≠ k ∧ ∃ p ∈ m, p.1 = i := by
  unfold mapDelete
  constructor
  · rintro ⟨p, hp, hpi⟩
    rcases List.mem_filter.mp hp with ⟨hpm, hpk⟩
    refine ⟨?_, p, hpm, hpi⟩
    intro hik
    rw [hik] at hpi
    simp [hpi] at hpk
  · rintro ⟨hik, p, hp, hpi⟩
    exact ⟨p, List.mem_filter.mpr ⟨hp, by simp [hpi, hik]⟩, hpi⟩

theorem ids_storeCancel (ts : List TriggerEntry) (k i : String) :
    (∃ x ∈ storeCancel ts k, x.id = i) ↔ i ≠ k ∧ ∃ x ∈ ts, x.id = i := by
  unfold storeCancel
  constructor
  · rintro ⟨x, hx, hxi⟩
    rcases List.mem_filter.mp hx with ⟨hxm, hxk⟩
    refine ⟨?_, x, hxm, hxi⟩
    intro hik
    rw [hik] at hxi
    simp [hxi] at hxk
  · rintro ⟨hik, x, hx, hxi⟩
    exact ⟨x, List.mem_filter.mpr ⟨hx, by simp [hxi, hik]⟩, hxi⟩

/-- The listing/trigger-store agreement invariant: an id has a map entry
exactly when it has an armed trigger. -/
def Agrees (s : ServiceState) : Prop :=
  ∀ i : String, (∃ p ∈ s.alarms, p.1 = i) ↔ ∃ e ∈ s.triggers, e.id = i

theorem agrees_applyOp (s : ServiceState) (op : AlarmOp) (h : Agrees s) :
    Agrees (applyOp s op) := by
  intro i
  cases op with
  | schedule now a =>
    simp only [applyOp, scheduleAlarm, saveAlarms]
    rw [keys_mapSet, ids_storeArm]
    exact or_congr Iff.rfl (h i)
  | cancel j =>
    simp only [applyOp, cancelAlarm, saveAlarms]
    rw [keys_mapDelete, ids_storeCancel]
    exact and_congr Iff.rfl (h i)
  | delete j =>
    simp only [applyOp, deleteAlarm, cancelAlarm, saveAlarms]
    rw [keys_mapDelete, keys_mapDelete, ids_storeCancel]
    constructor
    · rintro ⟨hij, _, hex⟩
      exact ⟨hij, (h i).mp hex⟩
    · rintro ⟨hij, hex⟩
      exact ⟨hij, hij, (h i).mpr hex⟩

theorem agrees_runOps (ops : List AlarmOp) (s : ServiceState) (h : Agrees s) :
    Agrees (runOps s ops) := by
  induction ops generalizing s with
  | nil => exact h
  | cons op rest ih => exact ih (applyOp s op) (agrees_applyOp s op h)

theorem filter_find?_none {α : Type} (l : List α) (p : α → Bool) :
    (l.filter (fun x => !p x)).find? p = none := by
  rw [List.find?_eq_none]
  intro x hx
  rcases List.mem_filter.mp hx with ⟨_, hpx⟩
  simpa using hpx

theorem keyedById_mapSet (m : List (String × AlarmData)) (k : String)
    (v : AlarmData) (hm : ∀ p ∈ m, p.2.id = p.1) (hv : v.id = k) :
    ∀ p ∈ mapSet m k v, p.2.id = p.1 := by
  intro p hp
  unfold mapSet at hp
  by_cases hmem : m.any (fun q => q.1 == k) = true
  · rw [if_pos hmem] at hp
    rcases List.mem_map.mp hp with ⟨q, hq, hqp⟩
    by_cases hqk : q.1 == k
    · have : p = (k, v) := by simpa [hqk] using hqp.symm
      rw [this]
      exact hv
    · have : p = q := by simpa [hqk] using hqp.symm
      rw [this]
      exact hm q hq
  · rw [if_neg hmem] at hp
    rcases List.mem_append.mp hp with hp2 | hp2
    · exact hm p hp2
    · have : p = (k, v) := by simpa using hp2
      rw [this]
      exact hv

theorem keyedById_applyOp (s : ServiceState) (op : AlarmOp)
    (h : KeyedById s) : KeyedById (applyOp s op) := by
  cases op with
  | schedule now a =>
    intro p hp
    simp only [applyOp, scheduleAlarm, saveAlarms] at hp
    exact keyedById_mapSet s.alarms a.id { a with time := armTime now a.time }
      h rfl p hp
  | cancel j =>
    intro p hp
    simp only [applyOp, cancelAlarm, saveAlarms, mapDelete] at hp
    exact h p (List.mem_filter.mp hp).1
  | delete j =>
    intro p hp
    simp only [applyOp, deleteAlarm, cancelAlarm, saveAlarms, mapDelete] at hp
    exact h p (List.mem_filter.mp (List.mem_filter.mp hp).1).1

theorem keyedById_runOps (ops : List AlarmOp) (s : ServiceState)
    (h : KeyedById s) : KeyedById (runOps s ops) := by
  induction ops generalizing s with
  | nil => exact h
  | cons op rest ih => exact ih (applyOp s op) (keyedById_applyOp s op h)

/-! ## Claim theorems -/

/-- C1.  For every alarm whose scheduled time is at or before `now` when
`scheduleAlarm` runs (and at most one day past, so that one advance
suffices), the armed trigger instant is exactly the original scheduled
time plus 24 hours; the stored record carries that advanced time, and
re-submitting the stored record at the same `now` arms the same instant —
the adjustment is applied exactly once, with no cumulative drift. -/
theorem past_alarm_advanced_exactly_once (s : ServiceState) (now : Int)
    (a : AlarmData) (hpast : a.time ≤ now) (hnear : now < a.time + DAY_MS) :
    armedTimestamp (scheduleAlarm s now a) a.id = some (a.time + DAY_MS) ∧
    mapGet (scheduleAlarm s now a).alarms a.id =
      some { a with time := a.time + DAY_MS } ∧
    armedTimestamp
      (scheduleAlarm (scheduleAlarm s now a) now { a with time := a.time + DAY_MS })
      a.id = some (a.time + DAY_MS) := by
  have ht : armTime now a.time = a.time + DAY_MS := if_pos hpast
  have ht2 : armTime now (a.time + DAY_MS) = a.time + DAY_MS :=
    if_neg (by omega)
  refine ⟨?_, ?_, ?_⟩
  · show (((storeArm s.triggers ⟨a.id, armTime now a.time, a.repeatDaily⟩).find?
        (fun e => e.id == a.id)).map (fun e => e.timestamp)) = _
    have := storeArm_find s.triggers ⟨a.id, armTime now a.time, a.repeatDaily⟩
    rw [this]
    simp [ht]
  · show mapGet (mapSet s.alarms a.id { a with time := armTime now a.time })
      a.id = _
    rw [mapGet_mapSet_self]
    rw [ht]
  · show (((storeArm (scheduleAlarm s now a).triggers
        ⟨a.id, armTime now (a.time + DAY_MS), a.repeatDaily⟩).find?
        (fun e => e.id == a.id)).map (fun e => e.timestamp)) = _
    have := storeArm_find (scheduleAlarm s now a).triggers
      ⟨a.id, armTime now (a.time + DAY_MS), a.repeatDaily⟩
    rw [this]
    simp [ht2]

/-- Witness for C1: an alarm scheduled for the 86400000 ms mark submitted
five milliseconds later is armed at exactly 86400000 + 24 h, once. -/
theorem past_alarm_advanced_exactly_once_witness :
    armedTimestamp (scheduleAlarm initialState 86400005 pastAlarm)
      pastAlarm.id = some (pastAlarm.time + DAY_MS) ∧
    mapGet (scheduleAlarm initialState 86400005 pastAlarm).alarms
      pastAlarm.id = some { pastAlarm with time := pastAlarm.time + DAY_MS } ∧
    armedTimestamp
      (scheduleAlarm (scheduleAlarm initialState 86400005 pastAlarm) 86400005
        { pastAlarm with time := pastAlarm.time + DAY_MS })
      pastAlarm.id = some (pastAlarm.time + DAY_MS) :=
  past_alarm_advanced_exactly_once initialState 86400005 pastAlarm
    (by decide) (by decide)

/-- C2 counterexample: the claim's "no second, possibly divergent,
persisted copy of alarm state" is false — a single `scheduleAlarm` writes
a persisted mirror of the alarm map into `AsyncStorage` (`saveAlarms`), so
the storage slot is no longer empty. -/
theorem alarm_listing_counterexample :
    (runOps initialState [AlarmOp.schedule 86400005 pastAlarm]).storage ≠
      none := by decide

/-- C2 amended.  `getAllAlarms` reads the service's in-memory map (which
`saveAlarms` also mirrors into `AsyncStorage`, a second persisted copy),
not the trigger store; nevertheless, after any sequence of
schedule/cancel/delete operations from the fresh state, an alarm id
appears in the listing exactly when it has an armed trigger-store
entry. -/
theorem alarm_listing_matches_trigger_store (ops : List AlarmOp) (i : String) :
    (∃ a ∈ getAllAlarms (runOps initialState ops), a.id = i) ↔
      ∃ e ∈ (runOps initialState ops).triggers, e.id = i := by
  have hwf : KeyedById (runOps initialState ops) :=
    keyedById_runOps ops initialState (by intro p hp; simp [initialState] at hp)
  have hag : Agrees (runOps initialState ops) :=
    agrees_runOps ops initialState (by intro j; simp [initialState])
  constructor
  · rintro ⟨a, ha, hai⟩
    rcases List.mem_map.mp ha with ⟨p, hp, hpa⟩
    refine (hag i).mp ⟨p, hp, ?_⟩
    rw [← hwf p hp, hpa, hai]
  · intro hex
    rcases (hag i).mpr hex with ⟨p, hp, hpi⟩
    exact ⟨p.2, List.mem_map.mpr ⟨p, hp, rfl⟩, by rw [hwf p hp, hpi]⟩

/-- C6.  After the background handler resolves a fired alarm: a
non-repeating alarm is gone from the listing and from the trigger store; a
repeating alarm is still listed under the same id. -/
theorem resolveFired_repeat_semantics (s : ServiceState) (i : String)
    (a : AlarmData) (hwf : KeyedById s)
    (hfound : (getAllAlarms s).find? (fun b => b.id == i) = some a) :
    if a.repeatDaily then
      (getAllAlarms (resolveFired s i)).find? (fun b => b.id == i) = some a
    else
      (getAllAlarms (resolveFired s i)).find? (fun b => b.id == i) = none ∧
      (resolveFired s i).triggers.find? (fun e => e.id == i) = none := by
  have hai : a.id = i := by
    have := List.find?_some hfound
    simpa using this
  unfold resolveFired
  rw [hfound]
  by_cases hr : a.repeatDaily = true
  · simp only [if_pos hr, hr, if_true]
    exact hfound
  · simp only [if_neg hr]
    rw [hai]
    constructor
    · rw [List.find?_eq_none]
      intro b hb
      rcases List.mem_map.mp hb with ⟨p, hp, hpb⟩
      simp only [deleteAlarm, cancelAlarm, saveAlarms, mapDelete] at hp
      rcases List.mem_filter.mp hp with ⟨hp1, hpk⟩
      rcases List.mem_filter.mp hp1 with ⟨hp2, _⟩
      have hkey : p.2.id = p.1 := hwf p hp2
      intro hbi
      have : p.1 = i := by
        rw [← hkey, hpb]
        simpa using hbi
      simp [this] at hpk
    · show ((storeCancel s.triggers i).find? (fun e => e.id == i)) = none
      exact filter_find?_none s.triggers (fun e => e.id == i)

/-- Witness for C6: in a state holding one repeating and one one-shot
alarm, resolving the one-shot removes it from listing and store while
resolving the repeating one leaves it listed. -/
theorem resolveFired_repeat_semantics_witness :
    (getAllAlarms (resolveFired sampleState ("daily"))).find?
      (fun b => b.id == ("daily")) = some sampleRepeatAlarm ∧
    (getAllAlarms (resolveFired sampleState ("once"))).find?
      (fun b => b.id == ("once")) = none ∧
    (resolveFired sampleState ("once")).triggers.find?
      (fun e => e.id == ("once")) = none := by
  have h1 := resolveFired_repeat_semantics sampleState ("daily")
    sampleRepeatAlarm (by decide) (by decide)
  have h2 := resolveFired_repeat_semantics sampleState ("once")
    sampleOnceAlarm (by decide) (by decide)
  simp only [sampleRepeatAlarm, sampleOnceAlarm] at h1 h2
  exact ⟨h1, h2.1, h2.2⟩

theorem findBracket_before_mem (now : ℚ) (l : List TideEvent)
    (b0 b : Option TideEvent) (a : Option TideEvent)
    (h : findBracket now l b0 = (b, a)) :
    b = b0 ∨ ∃ x ∈ l, b = some x ∧ x.time ≤ now := by
  induction l generalizing b0 with
  | nil =>
    left
    simp only [findBracket] at h
    rw [← (Prod.mk.injEq _ _ _ _).mp h |>.1]
  | cons t rest ih =>
    simp only [findBracket] at h
    by_cases ht : t.time ≤ now
    · rw [if_pos ht] at h
      rcases ih (some t) h with h2 | ⟨x, hx, hbx, hxt⟩
      · right
        exact ⟨t, List.mem_cons_self t rest, h2, ht⟩
      · right
        exact ⟨x, List.mem_cons_of_mem t hx, hbx, hxt⟩
    · rw [if_neg ht] at h
      left
      rw [← (Prod.mk.injEq _ _ _ _).mp h |>.1]

theorem findBracket_after_isSome (now : ℚ) (l : List TideEvent)
    (b0 : Option TideEvent) :
    (findBracket now l b0).2.isSome = true ↔ ∃ x ∈ l, now < x.time := by
  induction l generalizing b0 with
  | nil => simp [findBracket]
  | cons t rest ih =>
    simp only [findBracket]
    by_cases ht : t.time ≤ now
    · rw [if_pos ht, ih (some t)]
      constructor
      · rintro ⟨x, hx, hxt⟩
        exact ⟨x, List.mem_cons_of_mem t hx, hxt⟩
      · rintro ⟨x, hx, hxt⟩
        rcases List.mem_cons.mp hx with rfl | hx2
        · exact absurd hxt (not_lt.mpr ht)
        · exact ⟨x, hx2, hxt⟩
    · rw [if_neg ht]
      simp only [Option.isSome_some, true_iff]
      exact ⟨t, List.mem_cons_self t rest, not_le.mp ht⟩

theorem findBracket_after_mem (now : ℚ) (l : List TideEvent)
    (b0 b : Option TideEvent) (a : TideEvent)
    (h : findBracket now l b0 = (b, some a)) : a ∈ l ∧ now < a.time := by
  induction l generalizing b0 with
  | nil => simp [findBracket] at h
  | cons t rest ih =>
    simp only [findBracket] at h
    by_cases ht : t.time ≤ now
    · rw [if_pos ht] at h
      rcases ih (some t) h with ⟨ha, hat⟩
      exact ⟨List.mem_cons_of_mem t ha, hat⟩
    · rw [if_neg ht] at h
      have : t = a := by
        have := (Prod.mk.injEq _ _ _ _).mp h |>.2
        simpa using this
      rw [← this]
      exact ⟨List.mem_cons_self t rest, not_le.mp ht⟩

theorem findBracket_before_isSome (now : ℚ) (l : List TideEvent)
    (b0 : Option TideEvent)
    (hs : l.Pairwise (fun x y => x.time ≤ y.time)) :
    (findBracket now l b0).1.isSome = true ↔
      b0.isSome = true ∨ ∃ x ∈ l, x.time ≤ now := by
  induction l generalizing b0 with
  | nil => simp [findBracket]
  | cons t rest ih =>
    rcases List.pairwise_cons.mp hs with ⟨hhead, htail⟩
    simp only [findBracket]
    by_cases ht : t.time ≤ now
    · rw [if_pos ht, ih (some t) htail]
      simp only [Option.isSome_some, true_or, true_iff]
      right
      exact ⟨t, List.mem_cons_self t rest, ht⟩
    · rw [if_neg ht]
      simp only
      constructor
      · intro hb
        exact Or.inl hb
      · rintro (hb | ⟨x, hx, hxt⟩)
        · exact hb
        · rcases List.mem_cons.mp hx with rfl | hx2
          · exact absurd hxt ht
          · exact absurd (le_trans (hhead x hx2) hxt) ht

/-- C5.  Whenever the scan of `calculateCurrentTide` finds a bracketing
pair `before = (t0, h0)` and `after = (t1, h1)`, the synthesized current
event carries exactly the linearly interpolated height
`h0 + (h1 - h0) * (now - t0) / (t1 - t0)`. -/
theorem current_tide_interpolated_height (now : ℚ) (tides : List TideEvent)
    (b a : TideEvent) (h : findBracket now tides none = (some b, some a)) :
    calculateCurrentTide now tides =
      some { type := .C, time := now,
             height := b.height + (a.height - b.height) *
               ((now - b.time) / (a.time - b.time)),
             formattedTime := ("Now"), isCurrent := true } := by
  unfold calculateCurrentTide
  rw [h]
  rfl

/-- Witness for C5, the spec's end-to-end example: a 3.0 ft high tide at
minute 600 (10:00) and a 0.5 ft low tide at minute 960 (16:00) give, at
minute 780 (13:00), a synthesized current height of exactly 1.75 ft. -/
theorem current_tide_interpolated_height_witness :
    calculateCurrentTide 780 sampleTides =
      some { type := .C, time := 780,
             height := sampleHighTide.height +
               (sampleLowTide.height - sampleHighTide.height) *
               ((780 - sampleHighTide.time) /
                 (sampleLowTide.time - sampleHighTide.time)),
             formattedTime := ("Now"), isCurrent := true } ∧
    sampleHighTide.height + (sampleLowTide.height - sampleHighTide.height) *
      ((780 - sampleHighTide.time) /
        (sampleLowTide.time - sampleHighTide.time)) = 7/4 :=
  ⟨current_tide_interpolated_height 780 sampleTides sampleHighTide
      sampleLowTide rfl,
    by norm_num [sampleHighTide, sampleLowTide]⟩

/-- C7.  For a time-ordered prediction sequence (of high/low events, as
`getTidePredictions` builds), a current event is synthesized exactly when
some event lies at or before `now` and some event lies after `now`; the
prediction list then starts with it, and without such a bracketing pair
the returned sequence contains no current event at all. -/
theorem current_tide_only_when_bracketed (now : ℚ) (tides : List TideEvent)
    (hs : tides.Pairwise (fun x y => x.time ≤ y.time))
    (hnc : ∀ t ∈ tides, t.type ≠ TideType.C) :
    (((∃ t ∈ tides, t.time ≤ now) ∧ ∃ t ∈ tides, now < t.time) ↔
      (calculateCurrentTide now tides).isSome = true) ∧
    (((∃ t ∈ tides, t.time ≤ now) ∧ ∃ t ∈ tides, now < t.time) ↔
      hasCurrentEvent (tidePredictions now tides)) := by
  have hbefore := findBracket_before_isSome now tides none hs
  have hafter := findBracket_after_isSome now tides none
  have hiff : ((∃ t ∈ tides, t.time ≤ now) ∧ ∃ t ∈ tides, now < t.time) ↔
      (calculateCurrentTide now tides).isSome = true := by
    constructor
    · rintro ⟨hex1, hex2⟩
      have h1 : (findBracket now tides none).1.isSome = true :=
        hbefore.mpr (Or.inr hex1)
      have h2 : (findBracket now tides none).2.isSome = true :=
        hafter.mpr hex2
      unfold calculateCurrentTide
      rcases hfb : findBracket now tides none with ⟨ob, oa⟩
      rw [hfb] at h1 h2
      rcases Option.isSome_iff_exists.mp h1 with ⟨b, rfl⟩
      rcases Option.isSome_iff_exists.mp h2 with ⟨a, rfl⟩
      simp
    · intro hsome
      unfold calculateCurrentTide at hsome
      rcases hfb : findBracket now tides none with ⟨ob, oa⟩
      rw [hfb] at hsome
      match ob, oa, hsome with
      | some b, some a, _ =>
        constructor
        · rcases findBracket_before_mem now tides none (some b) (some a)
              hfb with hb | ⟨x, hx, hbx, hxt⟩
          · simp at hb
          · have : x = b := by simpa using hbx.symm
            exact ⟨b, by rw [← this]; exact ⟨hx, hxt⟩⟩
        · rcases findBracket_after_mem now tides none (some b) a hfb with
            ⟨ha, hat⟩
          exact ⟨a, ha, hat⟩
  refine ⟨hiff, hiff.trans ?_⟩
  unfold tidePredictions
  constructor
  · intro hsome
    rcases Option.isSome_iff_exists.mp hsome with ⟨c, hc⟩
    rw [hc]
    have hctype : c.type = TideType.C := by
      unfold calculateCurrentTide at hc
      rcases hfb : findBracket now tides none with ⟨ob, oa⟩
      rw [hfb] at hc
      match ob, oa, hc with
      | some b, some a, hc =>
        have := (Option.some.injEq _ _).mp hc
        rw [← this]
    exact ⟨c, List.mem_cons_self c _, hctype⟩
  · rintro ⟨c, hc, hctype⟩
    rcases hcc : calculateCurrentTide now tides with _ | c2
    · rw [hcc] at hc
      rcases List.mem_filter.mp hc with ⟨hcm, _⟩
      exact absurd hctype (hnc c hcm)
    · simp

/-- Witness for C7: with the sample bracketed sequence a current event is
present at 13:00, while at a query time after the last event none is
synthesized. -/
theorem current_tide_only_when_bracketed_witness :
    hasCurrentEvent (tidePredictions 780 sampleTides) ∧
    ¬hasCurrentEvent (tidePredictions 1000 sampleTides) := by
  have h1 := current_tide_only_when_bracketed 780 sampleTides
    (by decide) (by decide)
  have h2 := current_tide_only_when_bracketed 1000 sampleTides
    (by decide) (by decide)
  refine ⟨h1.2.mp (by decide), fun hc => ?_⟩
  have := h2.2.mpr hc
  revert this
  decide

/-- C8.  On a bracketing interval `[t0, t1]` the interpolated height is
bounded between the two endpoint heights, and it is monotone in the query
time: the sign product `(h1 - h0) * (height t - height s)` is nonnegative
for `s ≤ t`, i.e. the height is non-decreasing when `h1 ≥ h0` and
non-increasing when `h1 ≤ h0`. -/
theorem interpHeight_bounded_monotone (t0 h0 t1 h1 s t : ℚ)
    (h01 : t0 < t1) (hs0 : t0 ≤ s) (hst : s ≤ t) (ht1 : t ≤ t1) :
    (min h0 h1 ≤ interpHeight t0 h0 t1 h1 s ∧
      interpHeight t0 h0 t1 h1 s ≤ max h0 h1) ∧
    0 ≤ (h1 - h0) * (interpHeight t0 h0 t1 h1 t - interpHeight t0 h0 t1 h1 s) := by
  have hd : (0 : ℚ) < t1 - t0 := by linarith
  have hs1 : s ≤ t1 := le_trans hst ht1
  have hf0 : 0 ≤ (s - t0) / (t1 - t0) := div_nonneg (by linarith) hd.le
  have hf1 : (s - t0) / (t1 - t0) ≤ 1 := (div_le_one hd).mpr (by linarith)
  constructor
  · unfold interpHeight
    rcases le_total h0 h1 with h | h
    · rw [min_eq_left h, max_eq_right h]
      constructor
      · nlinarith [mul_nonneg (sub_nonneg.mpr h) hf0]
      · nlinarith [mul_le_mul_of_nonneg_left hf1 (sub_nonneg.mpr h)]
    · rw [min_eq_right h, max_eq_left h]
      constructor
      · nlinarith [mul_le_mul_of_nonneg_left hf1 (sub_nonneg.mpr h)]
      · nlinarith [mul_nonneg (sub_nonneg.mpr h) hf0]
  · have key : interpHeight t0 h0 t1 h1 t - interpHeight t0 h0 t1 h1 s =
        (h1 - h0) * ((t - s) / (t1 - t0)) := by
      unfold interpHeight
      ring
    rw [key]
    have hx : 0 ≤ (t - s) / (t1 - t0) := div_nonneg (by linarith) hd.le
    have := mul_nonneg (mul_self_nonneg (h1 - h0)) hx
    nlinarith [this]

/-- Witness for C8 at a concrete bracketing interval. -/
theorem interpHeight_bounded_monotone_witness :
    (min 0 1 ≤ interpHeight 0 0 2 1 (1/2) ∧
      interpHeight 0 0 2 1 (1/2) ≤ max 0 1) ∧
    0 ≤ ((1 : ℚ) - 0) * (interpHeight 0 0 2 1 1 - interpHeight 0 0 2 1 (1/2)) :=
  interpHeight_bounded_monotone 0 0 2 1 (1/2) 1 (by norm_num) (by norm_num)
    (by norm_num) (by norm_num)

theorem getCachedLocation_fresh (now : ℚ) (cached : Option LocationData)
    (c : LocationData) (h : getCachedLocation now cached = some c) :
    now - c.timestamp ≤ CACHE_MAX_AGE_MS := by
  cases cached with
  | none => simp [getCachedLocation] at h
  | some c0 =>
    by_cases hage : now - c0.timestamp > CACHE_MAX_AGE_MS
    · simp [getCachedLocation, hage] at h
    · simp [getCachedLocation, hage] at h
      rw [← h]
      exact not_lt.mp hage

/-- C9.  Assuming the platform honors the `maximumAge` option (a fresh fix
is at most five minutes old), every fix returned by `getCurrentLocation`
was captured within the one-hour maximum cache age of the query time, and
when no fresh fix is obtainable (permission denied or platform failure)
while the cache is expired or absent, the operation returns a typed
failure. -/
theorem location_never_stale (now : ℚ) (cached : Option LocationData)
    (perm : Bool) (fresh : Except LocationError LocationData)
    (hfresh : withinAge FRESH_MAX_AGE_MS now fresh) :
    withinAge CACHE_MAX_AGE_MS now (getCurrentLocation now cached perm fresh).1 ∧
    (getCachedLocation now cached = none → perm = false →
      isFailure (getCurrentLocation now cached perm fresh).1) ∧
    (getCachedLocation now cached = none → isFailure fresh →
      isFailure (getCurrentLocation now cached perm fresh).1) := by
  cases perm with
  | false =>
    have hred : getCurrentLocation now cached false fresh =
        (match getCachedLocation now cached with
         | some c => (.ok c, cached)
         | none => (.error ⟨1, ("Location permission denied")⟩, cached)) := rfl
    rw [hred]
    rcases hc : getCachedLocation now cached with _ | c
    · exact ⟨trivial, fun _ _ => trivial, fun _ _ => trivial⟩
    · refine ⟨getCachedLocation_fresh now cached c hc, ?_, ?_⟩
      · intro hnone
        exact absurd hnone (by simp)
      · intro hnone
        exact absurd hnone (by simp)
  | true =>
    cases fresh with
    | ok l =>
      refine ⟨?_, ?_, ?_⟩
      · have hb : now - l.timestamp ≤ FRESH_MAX_AGE_MS := hfresh
        show now - l.timestamp ≤ CACHE_MAX_AGE_MS
        unfold FRESH_MAX_AGE_MS at hb
        unfold CACHE_MAX_AGE_MS
        linarith
      · intro _ hcontra
        exact absurd hcontra (by simp)
      · intro _ hcontra
        exact hcontra.elim
    | error e =>
      have hred : getCurrentLocation now cached true (Except.error e) =
          (match getCachedLocation now cached with
           | some c => (.ok c, cached)
           | none => (.error (defaultedError e), cached)) := rfl
      rw [hred]
      rcases hc : getCachedLocation now cached with _ | c
      · exact ⟨trivial, fun _ _ => trivial, fun _ _ => trivial⟩
      · refine ⟨getCachedLocation_fresh now cached c hc, ?_, ?_⟩
        · intro hnone
          exact absurd hnone (by simp)
        · intro hnone
          exact absurd hnone (by simp)

/-- Witness for C9: a one-hour-fresh cached fix is served when the
platform fails, and with no cache and permission denied the result is a
typed failure. -/
theorem location_never_stale_witness :
    withinAge CACHE_MAX_AGE_MS 4000000
      (getCurrentLocation 4000000 (some sampleFix) true
        (Except.error sampleLocErr)).1 ∧
    isFailure (getCurrentLocation 4000000 none false
      (Except.error sampleLocErr)).1 := by
  have h1 := location_never_stale 4000000 (some sampleFix) true
    (Except.error sampleLocErr) (by decide)
  have h2 := location_never_stale 4000000 none false
    (Except.error sampleLocErr) (by decide)
  exact ⟨h1.1, h2.2.1 rfl rfl⟩

/-- C3 counterexample: under the interpretation `polarMath` of the trig
primitives, `cosHourAngle = -2` lies outside `[-1, 1]` and the engine
correctly reports the event as undefined — yet the public `getSunTimes`
result carries a substituted instant (the current clock reading, here 777)
for that very event, contradicting the claim that the public result holds
no substituted value. -/
theorem sun_no_substitution_counterexample :
    cosHourAngleOf polarMath 0 0 SUNRISE_SUNSET_ZENITH < -1 ∧
    calculateSunTimes polarMath 0 0 0 0 SUNRISE_SUNSET_ZENITH true = none ∧
    (getSunTimes polarMath 0 0 0 0 777).sunrise = 777 := by
  have hcos : cosHourAngleOf polarMath 0 0 SUNRISE_SUNSET_ZENITH = -2 := by
    simp only [cosHourAngleOf, polarMath]
    norm_num
  have hlt : cosHourAngleOf polarMath 0 0 SUNRISE_SUNSET_ZENITH < -1 := by
    rw [hcos]
    norm_num
  have hnone : calculateSunTimes polarMath 0 0 0 0 SUNRISE_SUNSET_ZENITH true =
      none := by
    simp only [calculateSunTimes]
    rw [if_pos (Or.inr hlt)]
  refine ⟨hlt, hnone, ?_⟩
  simp only [getSunTimes]
  rw [hnone]

/-- C3 amended.  The internal computation returns an undefined instant
exactly when `cos(hourAngle)` falls outside `[-1, 1]` (polar day/night) —
for every interpretation of the trig primitives; the public `getSunTimes`,
however, substitutes the current clock time for undefined events rather
than leaving them absent. -/
theorem sun_undefined_iff_cos_out_of_range (M : MathOps)
    (latitude longitude dateMs tzOffsetMin zenith : ℚ) (isSunrise : Bool) :
    calculateSunTimes M latitude longitude dateMs tzOffsetMin zenith
        isSunrise = none ↔
      (1 < cosHourAngleOf M latitude dateMs zenith ∨
        cosHourAngleOf M latitude dateMs zenith < -1) := by
  unfold calculateSunTimes
  by_cases h : 1 < cosHourAngleOf M latitude dateMs zenith ∨
      cosHourAngleOf M latitude dateMs zenith < -1
  · simp [h]
  · simp [h]

/-- C10.  The public `getSunTimes` is total: all four fields are plain
instants, each equal to the engine's computed instant when the event
occurs and to the current clock time when the engine reports the event as
not occurring. -/
theorem getSunTimes_total_substitutes_now (M : MathOps)
    (latitude longitude dateMs tzOffsetMin now : ℚ) :
    getSunTimes M latitude longitude dateMs tzOffsetMin now =
      { sunrise := (calculateSunTimes M latitude longitude dateMs tzOffsetMin
          SUNRISE_SUNSET_ZENITH true).getD now,
        sunset := (calculateSunTimes M latitude longitude dateMs tzOffsetMin
          SUNRISE_SUNSET_ZENITH false).getD now,
        dawn := (calculateSunTimes M latitude longitude dateMs tzOffsetMin
          CIVIL_TWILIGHT_ZENITH true).getD now,
        dusk := (calculateSunTimes M latitude longitude dateMs tzOffsetMin
          CIVIL_TWILIGHT_ZENITH false).getD now } := by
  unfold getSunTimes
  cases calculateSunTimes M latitude longitude dateMs tzOffsetMin
      SUNRISE_SUNSET_ZENITH true <;>
    cases calculateSunTimes M latitude longitude dateMs tzOffsetMin
      SUNRISE_SUNSET_ZENITH false <;>
    cases calculateSunTimes M latitude longitude dateMs tzOffsetMin
      CIVIL_TWILIGHT_ZENITH true <;>
    cases calculateSunTimes M latitude longitude dateMs tzOffsetMin
      CIVIL_TWILIGHT_ZENITH false <;>
    rfl

/-- C4.  With a successful location fix, the briefing narration is, for
every combination of failed providers, exactly the fixed preamble followed
by the surviving provider sentences in the fixed composition order — the
sentences of failed providers are simply omitted, and the aggregator is
total (never raises) by construction. -/
theorem briefing_omits_failed_providers (hour : Int)
    (timeString dateString : String) (l : LocationData)
    (o : ProviderOutcomes) :
    speakAlmanac hour timeString dateString (.ok l) o =
      speechPreamble hour timeString dateString ++ concatAll (sentenceSlots o) := by
  obtain ⟨c, w, td, aq, st, bv⟩ := o
  rcases c with _ | (_ | c) <;> rcases w with _ | w <;>
    rcases st with _ | st <;> rcases td with _ | (_ | ⟨t1, ts⟩) <;>
    rcases aq with _ | aq <;> rcases bv with _ | bv <;>
    simp [speakAlmanac, composeSpeech, sentenceSlots, concatAll,
      String.append_assoc, String.append_empty, Nat.zero_lt_succ]

end AlmanacAlarm
